import Mathlib

/-!
Verification of the batch conversion scheduler of
`src/converters/batch_service.py` (class `BatchService`), the canonical
cancellation-aware batch engine of the repository.

The scheduler is shallowly embedded as a deterministic transition system:
every lock-protected critical section of the Python code becomes one atomic
step function on an explicit state record.  Machine details that no claim
depends on are modelled as follows: wall-clock timestamps (`time.time()`,
a float in the source) are natural numbers supplied to each step; the
opaque `options` bag (a Python dict) is an association list; the external
`EnhancedConverter.convert_image` Conversion Function is a parameter of the
worker step, returning either a `(success, message)` pair or a raised
exception described by its type and message (its third `debug_info`
component is ignored by `_process_task`, so it is omitted).  The
`percentage` / `success_rate` figures of the source are computed with
Python float arithmetic; they are modelled exactly by an executable model
of IEEE-754 binary64 round-to-nearest-even rounding (`toDouble` below).
-/

/-- BTask lifecycle status (`task["status"]` strings of the source). -/
inductive TStatus where
  | pending
  | processing
  | completed
  | failed
  | cancelled
deriving DecidableEq

/-- One task record, as built by `BatchService.add_file_task`
(`batch_service.py:35-44,48`). -/
structure BTask where
  id : Nat
  inputPath : String
  outputPath : String
  options : List (String × String)
  status : TStatus
  error : Option String
  startTime : Option Nat
  endTime : Option Nat
  duration : Nat
deriving DecidableEq

/-- Outcome of one `convert_image(input, output, options)` call as consumed
by `_process_task`: a returned `(success, message, _)` tuple, or a raised
exception with its type name and message. -/
inductive ConvResult where
  | ok (success : Bool) (message : String)
  | exn (excType : String) (excMessage : String)
deriving DecidableEq

/-- The Conversion Function collaborator. -/
def ConvFn := String → String → List (String × String) → ConvResult

/-- The fields of `get_detailed_error_info` (`debug_utils.py:6-31`) that
`_process_task` consumes; the `traceback`/`caller` strings are not read by
the scheduler and are omitted. -/
structure ErrorInfo where
  excType : String
  message : String
deriving DecidableEq

/-- `get_detailed_error_info(e)`: records `type(e).__name__` and `str(e)`
(`debug_utils.py:16-17,26-31`). -/
def getDetailedErrorInfo (excType excMessage : String) : ErrorInfo :=
  { excType := excType, message := excMessage }

/-- The shared mutable state of one `BatchService` instance
(`batch_service.py:13-31`).  `inFlight` is a history variable recording
which dispatched workers have passed the cancellation check at
`batch_service.py:203` and are mid-conversion (the workers' program
counters, not a Python field); `claimOrder` is a history variable
recording the order in which task ids were claimed by the scheduler loop.
Neither influences any step's effect on the Python-visible fields. -/
structure BatchState where
  maxWorkers : Nat
  running : Bool
  cancelRequested : Bool
  tasks : List BTask
  pendingTasks : List Nat
  processingTasks : List Nat
  completedTasks : List Nat
  failedTasks : List Nat
  inFlight : List Nat
  claimOrder : List Nat
deriving DecidableEq

/-- `BatchService.__init__` (`batch_service.py:13-31`); `cpuCount` stands
for `os.cpu_count()`, so `max_workers = min(32, os.cpu_count() + 4)`. -/
def initState (cpuCount : Nat) : BatchState :=
  { maxWorkers := min 32 (cpuCount + 4)
    running := false
    cancelRequested := false
    tasks := []
    pendingTasks := []
    processingTasks := []
    completedTasks := []
    failedTasks := []
    inFlight := []
    claimOrder := [] }

/-- Apply `f` to the element at index `n` (the dict write
`self.tasks[task_id]` mutating one task record in place). -/
def modifyAt (f : BTask → BTask) : Nat → List BTask → List BTask
  | _, [] => []
  | 0, t :: ts => f t :: ts
  | n + 1, t :: ts => t :: modifyAt f n ts

/-- `add_file_task` (`batch_service.py:33-53`): build a fresh `pending`
task, key it by `task_id = len(self.tasks)`, store it and append the id to
the pending list, all under the lock. -/
def addFileTask (inputPath outputPath : String) (options : List (String × String))
    (s : BatchState) : BatchState :=
  let task : BTask :=
    { id := s.tasks.length
      inputPath := inputPath
      outputPath := outputPath
      options := options
      status := .pending
      error := none
      startTime := none
      endTime := none
      duration := 0 }
  { s with
    tasks := s.tasks ++ [task]
    pendingTasks := s.pendingTasks ++ [s.tasks.length] }

/-- `start` (`batch_service.py:117-140`): refuse when already running or
when there is no pending work; otherwise mark the run active and clear the
cancellation flag.  (Thread-pool creation and spawning the monitor thread
carry no registry state.) -/
def startStep (s : BatchState) : BatchState :=
  if s.running = true then s
  else if s.pendingTasks = [] then s
  else { s with running := true, cancelRequested := false }

/-- `cancel` (`batch_service.py:252-258`): a no-op when not running,
otherwise set the shared flag and return immediately. -/
def cancelStep (s : BatchState) : BatchState :=
  if s.running = true then { s with cancelRequested := true } else s

/-- `reset` (`batch_service.py:335-345`): when running, first call
`cancel()` (which only sets the flag — it does not wait), then clear every
collection under the lock.  The history variable `claimOrder` is cleared
with the registry generation it recorded; `inFlight` workers are threads
the service cannot unwind, so they are untouched. -/
def resetStep (s : BatchState) : BatchState :=
  let s1 := if s.running = true then cancelStep s else s
  { s1 with
    tasks := []
    pendingTasks := []
    processingTasks := []
    completedTasks := []
    failedTasks := []
    claimOrder := [] }

/-- The claim block of `_monitor_progress` (`batch_service.py:150-172`),
one lock acquisition: `available = max_workers - len(processing_tasks)`,
pop `min(available, len(pending_tasks))` ids off the front of the pending
list, mark each `processing` with `start_time = now`, insert each into the
processing dict, and submit each to the executor. -/
def claimBatch (now : Nat) (s : BatchState) : BatchState :=
  let available := s.maxWorkers - s.processingTasks.length
  let k := min available s.pendingTasks.length
  let claimed := s.pendingTasks.take k
  { s with
    pendingTasks := s.pendingTasks.drop k
    tasks := claimed.foldl
      (fun ts id =>
        modifyAt (fun t => { t with status := .processing, startTime := some now }) id ts)
      s.tasks
    processingTasks := s.processingTasks ++ claimed
    claimOrder := s.claimOrder ++ claimed }

/-- One iteration of the `_monitor_progress` loop
(`batch_service.py:142-189`): re-check the `while` condition; if it fails,
the loop has exited and the epilogue sets `running = False`
(`batch_service.py:189`); if the cancellation flag is observed the loop
`break`s to the same epilogue without claiming; otherwise claim a batch.
The progress callback and the `time.sleep(0.1)` touch no registry state. -/
def monitorIter (now : Nat) (s : BatchState) : BatchState :=
  if s.running = true ∧ (s.pendingTasks ≠ [] ∨ s.processingTasks ≠ []) then
    if s.cancelRequested = true then { s with running := false }
    else claimBatch now s
  else { s with running := false }

/-- A dispatched worker reaches `_process_task`, finds the cancellation
flag clear at `batch_service.py:203`, and enters the `try` block: from now
on it runs the conversion to its natural end.  Only the `inFlight` history
variable moves; the Python state is untouched.  The guard
`id ∈ processingTasks` says the worker was dispatched and has not yet
recorded a result. -/
def workerBegin (id : Nat) (s : BatchState) : BatchState :=
  if s.cancelRequested = false ∧ id ∈ s.processingTasks ∧ id ∉ s.inFlight then
    { s with inFlight := id :: s.inFlight }
  else s

/-- A dispatched worker observes the cancellation flag set before
converting (`batch_service.py:203-212`): under the lock it pops the task
from the processing dict, relabels it `cancelled`, stamps `end_time` and
`duration`, and appends its id to `failed_tasks`. -/
def workerObserveCancel (id now : Nat) (s : BatchState) : BatchState :=
  if s.cancelRequested = true ∧ id ∉ s.inFlight ∧ id ∈ s.processingTasks then
    { s with
      processingTasks := s.processingTasks.erase id
      tasks := modifyAt
        (fun t => { t with
          status := .cancelled
          endTime := some now
          duration := now - t.startTime.getD 0 }) id s.tasks
      failedTasks := s.failedTasks ++ [id] }
  else s

/-- A mid-conversion worker finishes (`batch_service.py:214-250`): the
`convert_image` call is made with only `(input_path, output_path)` —
`batch_service.py:221` does not forward the task's `options`, so the
Conversion Function receives the empty default bag.  Under the lock, if
the task is still in the processing dict it is moved to the completed or
failed bucket according to the returned `success` flag; a raised exception
is caught and `error` is set to `get_detailed_error_info(e)["message"]`
(`batch_service.py:238-248`) — nothing escapes the worker.  The worker
reads the task's immutable paths captured at dispatch; they equal the
registry values here. -/
def workerFinish (conv : ConvFn) (id now : Nat) (s : BatchState) : BatchState :=
  if id ∈ s.inFlight then
    match s.tasks.get? id with
    | none => { s with inFlight := s.inFlight.erase id }
    | some t =>
      match conv t.inputPath t.outputPath [] with
      | .ok success message =>
        if id ∈ s.processingTasks then
          if success then
            { s with
              inFlight := s.inFlight.erase id
              processingTasks := s.processingTasks.erase id
              tasks := modifyAt
                (fun u => { u with
                  status := .completed
                  endTime := some now
                  duration := now - u.startTime.getD 0 }) id s.tasks
              completedTasks := s.completedTasks ++ [id] }
          else
            { s with
              inFlight := s.inFlight.erase id
              processingTasks := s.processingTasks.erase id
              tasks := modifyAt
                (fun u => { u with
                  status := .failed
                  error := some message
                  endTime := some now
                  duration := now - u.startTime.getD 0 }) id s.tasks
              failedTasks := s.failedTasks ++ [id] }
        else { s with inFlight := s.inFlight.erase id }
      | .exn excType excMessage =>
        if id ∈ s.processingTasks then
          { s with
            inFlight := s.inFlight.erase id
            processingTasks := s.processingTasks.erase id
            tasks := modifyAt
              (fun u => { u with
                status := .failed
                error := some (getDetailedErrorInfo excType excMessage).message
                endTime := some now
                duration := now - u.startTime.getD 0 }) id s.tasks
            failedTasks := s.failedTasks ++ [id] }
        else { s with inFlight := s.inFlight.erase id }
  else s

/-- The atomic actions of the system: external API calls, one scheduler
loop iteration, and the three worker phases. -/
inductive Act where
  | addTask (inputPath outputPath : String) (options : List (String × String))
  | startA
  | cancelA
  | resetA
  | monitorA (now : Nat)
  | workerBeginA (id : Nat)
  | workerCancelA (id now : Nat)
  | workerFinishA (id now : Nat)
deriving DecidableEq

/-- Interpret one atomic action. -/
def stepFn (conv : ConvFn) (a : Act) (s : BatchState) : BatchState :=
  match a with
  | .addTask i o opts => addFileTask i o opts s
  | .startA => startStep s
  | .cancelA => cancelStep s
  | .resetA => resetStep s
  | .monitorA now => monitorIter now s
  | .workerBeginA id => workerBegin id s
  | .workerCancelA id now => workerObserveCancel id now s
  | .workerFinishA id now => workerFinish conv id now s

/-- Run a sequence of atomic actions from a fresh service instance. -/
def runActs (conv : ConvFn) (cpuCount : Nat) (acts : List Act) : BatchState :=
  acts.foldl (fun s a => stepFn conv a s) (initState cpuCount)

/-!  ### Python float arithmetic model

`_get_progress_info` computes
`int((len(completed) + len(failed)) / len(tasks) * 100)` and `get_results`
computes `len(completed) / len(tasks) * 100` with CPython semantics: `/`
on two ints yields the correctly rounded IEEE-754 binary64 quotient,
`*` rounds the exact product, `int()` truncates toward zero.  The model
below rounds an exact nonnegative rational to the nearest binary64 value
(ties to even significand).  Nonnegative rationals are carried as raw
numerator/denominator pairs (`NnFrac`, not kept reduced) so every
operation is plain `Nat` arithmetic the kernel evaluates directly.
Exponent overflow/underflow is unreachable in the ranges the scheduler
produces and is not modelled. -/

/-- An unreduced nonnegative fraction `num / den`; `den` is positive
wherever the scheduler builds one. -/
structure NnFrac where
  num : Nat
  den : Nat
deriving DecidableEq

/-- Fuel-driven `⌊log₂ n⌋` (`0` for `n ≤ 1`); structural recursion so the
kernel can evaluate it. -/
def log2Fuel (fuel n : Nat) : Nat :=
  match fuel with
  | 0 => 0
  | f + 1 => if n ≤ 1 then 0 else log2Fuel f (n / 2) + 1

/-- `⌊log₂ n⌋` for `n ≥ 1` (`n` itself is ample fuel). -/
def natLog2 (n : Nat) : Nat := log2Fuel n n

/-- Whether `2 ^ e ≤ q`, by cross-multiplication. -/
def le2pow (e : ℤ) (q : NnFrac) : Bool :=
  if 0 ≤ e then 2 ^ e.toNat * q.den ≤ q.num else q.den ≤ q.num * 2 ^ (-e).toNat

/-- `⌊log₂ q⌋` for a positive fraction: the `e` with
`2 ^ e ≤ q < 2 ^ (e + 1)`, located from the bit lengths of the numerator
and denominator and a final adjustment. -/
def qlog2 (q : NnFrac) : ℤ :=
  let t : ℤ := (natLog2 q.num : ℤ) - (natLog2 q.den : ℤ)
  if le2pow (t + 1) q then t + 1
  else if le2pow t q then t
  else t - 1

/-- Round a nonnegative fraction to the nearest natural, ties to even. -/
def roundHalfEven (q : NnFrac) : Nat :=
  let f := q.num / q.den
  let r2 := 2 * (q.num % q.den)
  if r2 < q.den then f
  else if q.den < r2 then f + 1
  else if f % 2 = 0 then f else f + 1

/-- Round a nonnegative fraction to the nearest IEEE-754 binary64 value
(round-to-nearest, ties-to-even), returned as the exact fraction it
denotes: the significand is `q / 2 ^ (e - 52)` rounded, with
`e = ⌊log₂ q⌋`. -/
def toDouble (q : NnFrac) : NnFrac :=
  if q.num = 0 then { num := 0, den := 1 }
  else
    let e := qlog2 q
    if e ≤ 52 then
      { num := roundHalfEven { num := q.num * 2 ^ (52 - e).toNat, den := q.den }
        den := 2 ^ (52 - e).toNat }
    else
      { num := roundHalfEven { num := q.num, den := q.den * 2 ^ (e - 52).toNat } *
          2 ^ (e - 52).toNat
        den := 1 }

/-- CPython `a / b` on nonnegative ints: the correctly rounded double. -/
def pyDiv (a b : Nat) : NnFrac := toDouble { num := a, den := b }

/-- CPython `x * 100` on a nonnegative double: correctly rounded. -/
def pyMul100 (x : NnFrac) : NnFrac := toDouble { num := x.num * 100, den := x.den }

/-- `int((done / total) * 100)` as computed at `batch_service.py:319`
(`int()` truncates; the operands here are nonnegative). -/
def pyPercent (done total : Nat) : Nat :=
  let p := pyMul100 (pyDiv done total)
  p.num / p.den

/-!  ### Progress snapshot and results summary -/

/-- One entry of a `_get_progress_info` bucket
(`batch_service.py:272-309`): the source dicts carry an `"error"` key only
in the failed bucket; entries of the other buckets have `error = none`
here. -/
structure ProgressEntry where
  inputPath : String
  outputPath : String
  status : TStatus
  error : Option String
  duration : Nat
deriving DecidableEq

/-- The value returned by `_get_progress_info`
(`batch_service.py:311-320`). -/
structure ProgressInfo where
  pending : List ProgressEntry
  processing : List ProgressEntry
  completed : List ProgressEntry
  failed : List ProgressEntry
  total : Nat
  completedCount : Nat
  failedCount : Nat
  percentage : Nat
deriving DecidableEq

/-- Fallback task record for the unreachable case of a registry id with no
stored task (`self.tasks[task_id]` in the source assumes presence). -/
def dummyTask : BTask :=
  { id := 0, inputPath := "", outputPath := "", options := [], status := .pending
    error := none, startTime := none, endTime := none, duration := 0 }

/-- `_get_progress_info` (`batch_service.py:260-320`), one lock
acquisition: build the four bucket lists (cancelled tasks sit in
`failed_tasks` and are reported inside the failed bucket, keeping their
own `status` tag), the scalar counts, and the truncating float percentage
(`0` when the registry is empty, by the trailing
`if self.tasks else 0`). `now` stands for the `time.time()` calls used for
the live duration of processing entries. -/
def getProgressInfo (now : Nat) (s : BatchState) : ProgressInfo :=
  { pending := s.pendingTasks.map (fun id =>
      let t := s.tasks.getD id dummyTask
      { inputPath := t.inputPath, outputPath := t.outputPath, status := t.status
        error := none, duration := 0 })
    processing := s.processingTasks.map (fun id =>
      let t := s.tasks.getD id dummyTask
      { inputPath := t.inputPath, outputPath := t.outputPath, status := t.status
        error := none
        duration := match t.startTime with
          | some st => now - st
          | none => 0 })
    completed := s.completedTasks.map (fun id =>
      let t := s.tasks.getD id dummyTask
      { inputPath := t.inputPath, outputPath := t.outputPath, status := t.status
        error := none, duration := t.duration })
    failed := s.failedTasks.map (fun id =>
      let t := s.tasks.getD id dummyTask
      { inputPath := t.inputPath, outputPath := t.outputPath, status := t.status
        error := t.error, duration := t.duration })
    total := s.tasks.length
    completedCount := s.completedTasks.length
    failedCount := s.failedTasks.length
    percentage :=
      if s.tasks.length = 0 then 0
      else pyPercent (s.completedTasks.length + s.failedTasks.length) s.tasks.length }

/-- The value returned by `get_results` (`batch_service.py:326-333`). -/
structure ResultsSummary where
  total : Nat
  completed : Nat
  failed : Nat
  successRate : NnFrac
deriving DecidableEq

/-- `get_results` (`batch_service.py:326-333`): terminal-state summary;
`success_rate` is the float `len(completed) / len(tasks) * 100`, `0` for
an empty registry. -/
def getResults (s : BatchState) : ResultsSummary :=
  { total := s.tasks.length
    completed := s.completedTasks.length
    failed := s.failedTasks.length
    successRate :=
      if s.tasks.length = 0 then { num := 0, den := 1 }
      else pyMul100 (pyDiv s.completedTasks.length s.tasks.length) }

/-- `is_running` (`batch_service.py:322-324`). -/
def isRunning (s : BatchState) : Bool := s.running

/-!  ### Derived observations and concrete instances used by the claims -/

/-- All ids held by the four registry collections, in bucket order. -/
def allIds (s : BatchState) : List Nat :=
  s.pendingTasks ++ s.processingTasks ++ s.completedTasks ++ s.failedTasks

/-- The status recorded for id `id` in the registry, when present. -/
def statusAt (s : BatchState) (id : Nat) : Option TStatus :=
  (s.tasks.get? id).map (fun t => t.status)

/-- Number of stored tasks bearing status `st`. -/
def countStatus (st : TStatus) (s : BatchState) : Nat :=
  (s.tasks.filter (fun t => decide (t.status = st))).length

/-- A Conversion Function that always succeeds. -/
def convOk : ConvFn := fun _ _ _ => ConvResult.ok true "ok"

/-- A Conversion Function whose outcome depends on the options bag: it
fails exactly when the bag is empty. -/
def convNeedsOptions : ConvFn := fun _ _ opts =>
  if opts.isEmpty then ConvResult.ok false "empty options" else ConvResult.ok true "ok"

/-- A Conversion Function that raises `ValueError("boom")`. -/
def convRaises : ConvFn := fun _ _ _ => ConvResult.exn "ValueError" "boom"

/-- Does the character sequence `pat` start `l`? -/
def charsStartWith : List Char → List Char → Bool
  | [], _ => true
  | _ :: _, [] => false
  | p :: ps, c :: cs => p == c && charsStartWith ps cs

/-- Does the character sequence `pat` occur contiguously inside `l`? -/
def charsOccurIn (pat : List Char) : List Char → Bool
  | [] => charsStartWith pat []
  | c :: cs => charsStartWith pat (c :: cs) || charsOccurIn pat cs

/-- One task submitted, started, cancelled, and the cancellation observed
by the scheduler loop. -/
def traceCancelObserved : List Act :=
  [Act.addTask "a" "b" [], Act.startA, Act.cancelA, Act.monitorA 0]

/-- One task submitted and driven to completion; the loop then exits. -/
def traceDrained : List Act :=
  [Act.addTask "a" "b" [], Act.startA, Act.monitorA 0, Act.workerBeginA 0,
    Act.workerFinishA 0 3, Act.monitorA 4]

/-- A task carrying a non-empty options bag, driven through one worker. -/
def traceOptions : List Act :=
  [Act.addTask "in.png" "out.exr" [("colorspace", "srgb")], Act.startA,
    Act.monitorA 0, Act.workerBeginA 0, Act.workerFinishA 0 1]

/-- One task whose conversion raises, driven through one worker. -/
def traceRaises : List Act :=
  [Act.addTask "a" "b" [], Act.startA, Act.monitorA 0, Act.workerBeginA 0,
    Act.workerFinishA 0 2]

/-- One task claimed and still processing. -/
def traceProcessing : List Act :=
  [Act.addTask "a" "b" [], Act.startA, Act.monitorA 0]

/-- One task claimed, its worker mid-conversion. -/
def traceMidFlight : List Act :=
  [Act.addTask "a" "b" [], Act.startA, Act.monitorA 0, Act.workerBeginA 0]

/-- Five tasks; four claimed; the worker of task 1 is mid-conversion when
cancellation is requested. -/
def traceCancelMidRun : List Act :=
  [Act.addTask "a" "b" [], Act.addTask "a" "b" [], Act.addTask "a" "b" [],
    Act.addTask "a" "b" [], Act.addTask "a" "b" [], Act.startA, Act.monitorA 0,
    Act.workerBeginA 1, Act.cancelA]

/-- 100 tasks with a large worker pool (`os.cpu_count() = 64` caps
`max_workers` at 32); 32 are claimed and 29 of them complete, leaving
29 of 100 tasks terminal. -/
def tracePercent29 : List Act :=
  List.replicate 100 (Act.addTask "a" "b" []) ++ [Act.startA, Act.monitorA 0] ++
    ((List.range 29).map (fun i => [Act.workerBeginA i, Act.workerFinishA i 1])).join

/-!  ### List bookkeeping lemmas -/

theorem length_modifyAt (f : BTask → BTask) (n : Nat) (l : List BTask) :
    (modifyAt f n l).length = l.length := by
  induction l generalizing n with
  | nil => cases n <;> rfl
  | cons t ts ih =>
    cases n with
    | zero => rfl
    | succ m => simp [modifyAt, ih]

theorem get?_modifyAt (f : BTask → BTask) (n : Nat) (l : List BTask) (j : Nat) :
    (modifyAt f n l).get? j =
      if j = n then (l.get? j).map f else l.get? j := by
  induction l generalizing n j with
  | nil => simp [modifyAt]
  | cons t ts ih =>
    cases n with
    | zero =>
      cases j with
      | zero => simp [modifyAt]
      | succ j' => simp [modifyAt]
    | succ m =>
      cases j with
      | zero => simp [modifyAt]
      | succ j' =>
        simp only [modifyAt, List.get?_cons_succ, ih, Nat.succ_eq_add_one]
        by_cases h : j' = m <;> simp [h]

theorem foldl_modifyAt_length (f : BTask → BTask) (ids : List Nat) (ts : List BTask) :
    (ids.foldl (fun a i => modifyAt f i a) ts).length = ts.length := by
  induction ids generalizing ts with
  | nil => rfl
  | cons i is ih => simp [List.foldl_cons, ih, length_modifyAt]

theorem foldl_modifyAt_get? (f : BTask → BTask) (hf : ∀ t, f (f t) = f t)
    (ids : List Nat) (ts : List BTask) (j : Nat) :
    (ids.foldl (fun a i => modifyAt f i a) ts).get? j =
      if j ∈ ids then (ts.get? j).map f else ts.get? j := by
  induction ids generalizing ts with
  | nil => simp
  | cons i is ih =>
    simp only [List.foldl_cons, ih, get?_modifyAt, List.mem_cons]
    by_cases hji : j = i
    · subst hji
      by_cases hmem : j ∈ is
      · simp only [hmem, if_true, true_or]
        cases ts.get? j <;> simp [hf]
      · simp only [hmem, if_false, true_or, if_pos rfl, if_true]
    · by_cases hmem : j ∈ is <;> simp [hji, hmem]

/-!  ### The registry invariant -/

/-- The registry invariant of the spec, plus the bookkeeping facts needed
to maintain it: the four collections hold exactly the stored ids, each
consistent with the task's status field (`failed_tasks` holds `failed`
and `cancelled` tasks — the source keeps cancelled ids there); the
processing set respects the worker bound; and pending ids and claimed ids
are in strictly increasing submission order with every claimed id older
than every pending one. -/
structure RegInv (s : BatchState) : Prop where
  perm : (allIds s).Perm (List.range s.tasks.length)
  pend : ∀ id ∈ s.pendingTasks, statusAt s id = some TStatus.pending
  proc : ∀ id ∈ s.processingTasks, statusAt s id = some TStatus.processing
  comp : ∀ id ∈ s.completedTasks, statusAt s id = some TStatus.completed
  fail : ∀ id ∈ s.failedTasks,
    statusAt s id = some TStatus.failed ∨ statusAt s id = some TStatus.cancelled
  bounded : s.processingTasks.length ≤ s.maxWorkers
  pendSorted : s.pendingTasks.Pairwise (· < ·)
  claimSorted : s.claimOrder.Pairwise (· < ·)
  claimLtPend : ∀ i ∈ s.claimOrder, ∀ j ∈ s.pendingTasks, i < j
  claimLtLen : ∀ i ∈ s.claimOrder, i < s.tasks.length

theorem inv_mem_lt {s : BatchState} (h : RegInv s) {id : Nat} (hm : id ∈ allIds s) :
    id < s.tasks.length := by
  have hr := h.perm.mem_iff.mp hm
  exact List.mem_range.mp hr

theorem inv_nodup {s : BatchState} (h : RegInv s) : (allIds s).Nodup :=
  h.perm.nodup_iff.mpr (List.nodup_range _)

theorem inv_init (cpuCount : Nat) : RegInv (initState cpuCount) := by
  refine ⟨?_, ?_, ?_, ?_, ?_, ?_, ?_, ?_, ?_, ?_⟩ <;>
    simp [initState, allIds]

theorem inv_startStep {s : BatchState} (h : RegInv s) : RegInv (startStep s) := by
  unfold startStep
  split_ifs <;>
    exact ⟨h.perm, h.pend, h.proc, h.comp, h.fail, h.bounded, h.pendSorted,
      h.claimSorted, h.claimLtPend, h.claimLtLen⟩

theorem inv_cancelStep {s : BatchState} (h : RegInv s) : RegInv (cancelStep s) := by
  unfold cancelStep
  split_ifs <;>
    exact ⟨h.perm, h.pend, h.proc, h.comp, h.fail, h.bounded, h.pendSorted,
      h.claimSorted, h.claimLtPend, h.claimLtLen⟩

theorem inv_resetStep {s : BatchState} (_h : RegInv s) : RegInv (resetStep s) := by
  unfold resetStep cancelStep
  split_ifs <;>
    exact ⟨by simp [allIds], by simp, by simp, by simp, by simp, by simp,
      by simp, by simp, by simp, by simp⟩

theorem inv_workerBegin {s : BatchState} (id : Nat) (h : RegInv s) :
    RegInv (workerBegin id s) := by
  unfold workerBegin
  split_ifs <;>
    exact ⟨h.perm, h.pend, h.proc, h.comp, h.fail, h.bounded, h.pendSorted,
      h.claimSorted, h.claimLtPend, h.claimLtLen⟩

theorem nodup_four {a b c d : List Nat} (h : (a ++ b ++ c ++ d).Nodup) :
    (a.Nodup ∧ b.Nodup ∧ c.Nodup ∧ d.Nodup) ∧
      (∀ x ∈ a, x ∉ b ∧ x ∉ c ∧ x ∉ d) ∧
      (∀ x ∈ b, x ∉ c ∧ x ∉ d) ∧ (∀ x ∈ c, x ∉ d) := by
  simp only [List.nodup_append, List.Disjoint, List.mem_append] at h
  obtain ⟨⟨⟨ha, hb, hab⟩, hc, habc⟩, hd, habcd⟩ := h
  refine ⟨⟨ha, hb, hc, hd⟩, ?_, ?_, ?_⟩
  · exact fun x hx => ⟨fun hxb => hab hx hxb, fun hxc => habc (Or.inl hx) hxc,
      fun hxd => habcd (Or.inl (Or.inl hx)) hxd⟩
  · exact fun x hx => ⟨fun hxc => habc (Or.inr hx) hxc,
      fun hxd => habcd (Or.inl (Or.inr hx)) hxd⟩
  · exact fun x hx hxd => habcd (Or.inr hx) hxd

theorem mem_allIds_of_pend {s : BatchState} {id : Nat} (h : id ∈ s.pendingTasks) :
    id ∈ allIds s := by
  simp [allIds, h]

theorem mem_allIds_of_proc {s : BatchState} {id : Nat} (h : id ∈ s.processingTasks) :
    id ∈ allIds s := by
  simp [allIds, h]

theorem mem_allIds_of_comp {s : BatchState} {id : Nat} (h : id ∈ s.completedTasks) :
    id ∈ allIds s := by
  simp [allIds, h]

theorem mem_allIds_of_fail {s : BatchState} {id : Nat} (h : id ∈ s.failedTasks) :
    id ∈ allIds s := by
  simp [allIds, h]

theorem inv_addFileTask {s : BatchState} (i o : String)
    (opts : List (String × String)) (h : RegInv s) : RegInv (addFileTask i o opts s) := by
  have hlen : (addFileTask i o opts s).tasks.length = s.tasks.length + 1 := by
    simp [addFileTask]
  have hstat : ∀ j < s.tasks.length,
      statusAt (addFileTask i o opts s) j = statusAt s j := by
    intro j hj
    simp [statusAt, addFileTask, List.getElem?_append_left hj]
  have hstatN : statusAt (addFileTask i o opts s) s.tasks.length =
      some TStatus.pending := by
    simp [statusAt, addFileTask, List.getElem?_concat_length]
  refine ⟨?_, ?_, ?_, ?_, ?_, ?_, ?_, ?_, ?_, ?_⟩
  · rw [← Multiset.coe_eq_coe]
    have hp : ((allIds s : List Nat) : Multiset Nat) = (List.range s.tasks.length : List Nat) :=
      Multiset.coe_eq_coe.mpr h.perm
    simp only [allIds, addFileTask, hlen, List.range_succ] at *
    simp only [← Multiset.coe_add] at *
    calc (↑s.pendingTasks + ↑[s.tasks.length] + ↑s.processingTasks +
        ↑s.completedTasks + ↑s.failedTasks : Multiset Nat)
        = (↑s.pendingTasks + ↑s.processingTasks + ↑s.completedTasks +
            ↑s.failedTasks : Multiset Nat) + ↑[s.tasks.length] := by ac_rfl
      _ = (↑(List.range s.tasks.length) : Multiset Nat) + ↑[s.tasks.length] := by rw [hp]
  · intro id hid
    simp only [addFileTask, List.mem_append, List.mem_singleton] at hid
    rcases hid with hid | hid
    · rw [hstat id (inv_mem_lt h (mem_allIds_of_pend hid))]
      exact h.pend id hid
    · rw [hid]; exact hstatN
  · intro id hid
    rw [hstat id (inv_mem_lt h (mem_allIds_of_proc hid))]
    exact h.proc id hid
  · intro id hid
    rw [hstat id (inv_mem_lt h (mem_allIds_of_comp hid))]
    exact h.comp id hid
  · intro id hid
    rcases h.fail id hid with hf | hf
    · exact Or.inl (by rw [hstat id (inv_mem_lt h (mem_allIds_of_fail hid))]; exact hf)
    · exact Or.inr (by rw [hstat id (inv_mem_lt h (mem_allIds_of_fail hid))]; exact hf)
  · exact h.bounded
  · simp only [addFileTask]
    rw [List.pairwise_append]
    refine ⟨h.pendSorted, List.pairwise_singleton _ _, ?_⟩
    intro a ha b hb
    rw [List.mem_singleton] at hb
    rw [hb]
    exact inv_mem_lt h (mem_allIds_of_pend ha)
  · exact h.claimSorted
  · intro a ha b hb
    simp only [addFileTask, List.mem_append, List.mem_singleton] at hb
    rcases hb with hb | hb
    · exact h.claimLtPend a ha b hb
    · rw [hb]; exact h.claimLtLen a ha
  · intro a ha
    rw [hlen]
    exact Nat.lt_succ_of_lt (h.claimLtLen a ha)

theorem inv_claimGeneral (now : Nat) {s : BatchState} (h : RegInv s) (k : Nat)
    (hkb : s.processingTasks.length + k ≤ s.maxWorkers)
    (hkp : k ≤ s.pendingTasks.length) :
    RegInv { s with
      pendingTasks := s.pendingTasks.drop k
      tasks := (s.pendingTasks.take k).foldl
        (fun ts id =>
          modifyAt (fun t => { t with status := .processing, startTime := some now }) id ts)
        s.tasks
      processingTasks := s.processingTasks ++ s.pendingTasks.take k
      claimOrder := s.claimOrder ++ s.pendingTasks.take k } := by
  obtain ⟨⟨hpnd, hprnd, hcnd, hfnd⟩, hpd, hprd, hcd⟩ := nodup_four (inv_nodup h)
  have htk : ∀ x ∈ s.pendingTasks.take k, x ∈ s.pendingTasks :=
    fun x hx => List.take_subset k s.pendingTasks hx
  have hdj : ∀ x ∈ s.pendingTasks.drop k, x ∉ s.pendingTasks.take k := by
    have hnd := hpnd
    rw [← List.take_append_drop k s.pendingTasks] at hnd
    rw [List.nodup_append] at hnd
    exact fun x hx hx' => hnd.2.2 hx' hx
  have hlen' : ((s.pendingTasks.take k).foldl
      (fun ts id =>
        modifyAt (fun t => { t with status := .processing, startTime := some now }) id ts)
      s.tasks).length = s.tasks.length :=
    foldl_modifyAt_length _ _ _
  have hget : ∀ j, ((s.pendingTasks.take k).foldl
      (fun ts id =>
        modifyAt (fun t => { t with status := .processing, startTime := some now }) id ts)
      s.tasks).get? j =
        if j ∈ s.pendingTasks.take k
        then (s.tasks.get? j).map
          (fun t => { t with status := .processing, startTime := some now })
        else s.tasks.get? j :=
    fun j => foldl_modifyAt_get?
      (fun t => { t with status := .processing, startTime := some now })
      (fun _ => rfl) (s.pendingTasks.take k) s.tasks j
  have hstat_not : ∀ j, j ∉ s.pendingTasks.take k →
      (((s.pendingTasks.take k).foldl
        (fun ts id =>
          modifyAt (fun t => { t with status := .processing, startTime := some now }) id ts)
        s.tasks).get? j).map (fun t => t.status) = statusAt s j := by
    intro j hj
    rw [hget j, if_neg hj]
    rfl
  have hstat_mem : ∀ j ∈ s.pendingTasks.take k,
      (((s.pendingTasks.take k).foldl
        (fun ts id =>
          modifyAt (fun t => { t with status := .processing, startTime := some now }) id ts)
        s.tasks).get? j).map (fun t => t.status) = some TStatus.processing := by
    intro j hj
    have hjp : statusAt s j = some TStatus.pending := h.pend j (htk j hj)
    rw [hget j, if_pos hj]
    cases hg : s.tasks.get? j with
    | none => rw [statusAt, hg] at hjp; simp at hjp
    | some t => simp
  refine ⟨?_, ?_, ?_, ?_, ?_, ?_, ?_, ?_, ?_, ?_⟩
  · rw [← Multiset.coe_eq_coe]
    have hp := Multiset.coe_eq_coe.mpr h.perm
    simp only [allIds] at hp ⊢
    rw [hlen']
    simp only [← Multiset.coe_add] at hp ⊢
    have hpt : ((s.pendingTasks.take k : List Nat) : Multiset Nat) +
        (s.pendingTasks.drop k : List Nat) = (s.pendingTasks : List Nat) := by
      rw [Multiset.coe_add, List.take_append_drop]
    calc ((s.pendingTasks.drop k : List Nat) : Multiset Nat) +
          ((s.processingTasks : List Nat) + (s.pendingTasks.take k : List Nat)) +
          (s.completedTasks : List Nat) + (s.failedTasks : List Nat)
        = ((s.pendingTasks.take k : List Nat) : Multiset Nat) +
            (s.pendingTasks.drop k : List Nat) + (s.processingTasks : List Nat) +
            (s.completedTasks : List Nat) + (s.failedTasks : List Nat) := by ac_rfl
      _ = ((s.pendingTasks : List Nat) : Multiset Nat) + (s.processingTasks : List Nat) +
            (s.completedTasks : List Nat) + (s.failedTasks : List Nat) := by rw [hpt]
      _ = ((List.range s.tasks.length : List Nat) : Multiset Nat) := hp
  · intro id hid
    have hid' : id ∈ s.pendingTasks.drop k := hid
    rw [statusAt]
    rw [hstat_not id (hdj id hid')]
    exact h.pend id (List.drop_subset k s.pendingTasks hid')
  · intro id hid
    rcases List.mem_append.mp hid with hid' | hid'
    · have hnt : id ∉ s.pendingTasks.take k := by
        intro hc
        exact (hpd id (htk id hc)).1 hid'
      rw [statusAt]
      rw [hstat_not id hnt]
      exact h.proc id hid'
    · rw [statusAt]
      exact hstat_mem id hid'
  · intro id hid
    have hnt : id ∉ s.pendingTasks.take k := by
      intro hc
      exact (hpd id (htk id hc)).2.1 hid
    rw [statusAt]
    rw [hstat_not id hnt]
    exact h.comp id hid
  · intro id hid
    have hnt : id ∉ s.pendingTasks.take k := by
      intro hc
      exact (hpd id (htk id hc)).2.2 hid
    rcases h.fail id hid with hf | hf
    · exact Or.inl (by rw [statusAt]; rw [hstat_not id hnt]; exact hf)
    · exact Or.inr (by rw [statusAt]; rw [hstat_not id hnt]; exact hf)
  · simp only [List.length_append, List.length_take]
    omega
  · exact h.pendSorted.sublist (List.drop_sublist k s.pendingTasks)
  · rw [List.pairwise_append]
    exact ⟨h.claimSorted, h.pendSorted.sublist (List.take_sublist k s.pendingTasks),
      fun a ha b hb => h.claimLtPend a ha b (htk b hb)⟩
  · intro a ha b hb
    rcases List.mem_append.mp ha with ha' | ha'
    · exact h.claimLtPend a ha' b (List.drop_subset k s.pendingTasks hb)
    · have hps := h.pendSorted
      rw [← List.take_append_drop k s.pendingTasks, List.pairwise_append] at hps
      exact hps.2.2 a ha' b hb
  · intro a ha
    rw [hlen']
    rcases List.mem_append.mp ha with ha' | ha'
    · exact h.claimLtLen a ha'
    · exact inv_mem_lt h (mem_allIds_of_pend (htk a ha'))

theorem inv_claimBatch (now : Nat) {s : BatchState} (h : RegInv s) :
    RegInv (claimBatch now s) := by
  have hkb : s.processingTasks.length +
      min (s.maxWorkers - s.processingTasks.length) s.pendingTasks.length ≤
        s.maxWorkers := by
    have := h.bounded
    omega
  have hkp : min (s.maxWorkers - s.processingTasks.length) s.pendingTasks.length ≤
      s.pendingTasks.length := Nat.min_le_right _ _
  exact inv_claimGeneral now h _ hkb hkp

theorem inv_monitorIter (now : Nat) {s : BatchState} (h : RegInv s) :
    RegInv (monitorIter now s) := by
  unfold monitorIter
  split_ifs
  · exact ⟨h.perm, h.pend, h.proc, h.comp, h.fail, h.bounded, h.pendSorted,
      h.claimSorted, h.claimLtPend, h.claimLtLen⟩
  · exact inv_claimBatch now h
  · exact ⟨h.perm, h.pend, h.proc, h.comp, h.fail, h.bounded, h.pendSorted,
      h.claimSorted, h.claimLtPend, h.claimLtLen⟩

theorem inv_moveToFailed {s : BatchState} (h : RegInv s) {id : Nat}
    (hid : id ∈ s.processingTasks) (g : BTask → BTask)
    (hg : ∀ t, (g t).status = TStatus.failed ∨ (g t).status = TStatus.cancelled)
    (nf : List Nat) :
    RegInv { s with
      inFlight := nf
      processingTasks := s.processingTasks.erase id
      tasks := modifyAt g id s.tasks
      failedTasks := s.failedTasks ++ [id] } := by
  obtain ⟨⟨hpnd, hprnd, hcnd, hfnd⟩, hpd, hprd, hcd⟩ := nodup_four (inv_nodup h)
  have hidlt : id < s.tasks.length := inv_mem_lt h (mem_allIds_of_proc hid)
  have hlen' : (modifyAt g id s.tasks).length = s.tasks.length := length_modifyAt g id s.tasks
  have hstat_not : ∀ j, j ≠ id →
      ((modifyAt g id s.tasks).get? j).map (fun t => t.status) = statusAt s j := by
    intro j hj
    rw [get?_modifyAt, if_neg hj]
    rfl
  refine ⟨?_, ?_, ?_, ?_, ?_, ?_, ?_, ?_, ?_, ?_⟩
  · rw [← Multiset.coe_eq_coe]
    have hp := Multiset.coe_eq_coe.mpr h.perm
    simp only [allIds] at hp ⊢
    rw [hlen']
    simp only [← Multiset.coe_add] at hp ⊢
    have hpr : ((s.processingTasks : List Nat) : Multiset Nat) =
        (([id] ++ s.processingTasks.erase id : List Nat) : Multiset Nat) :=
      Multiset.coe_eq_coe.mpr (List.perm_cons_erase hid)
    rw [← Multiset.coe_add] at hpr
    calc ((s.pendingTasks : List Nat) : Multiset Nat) +
          (s.processingTasks.erase id : List Nat) + (s.completedTasks : List Nat) +
          ((s.failedTasks : List Nat) + ([id] : List Nat))
        = ((s.pendingTasks : List Nat) : Multiset Nat) +
            (([id] : List Nat) + (s.processingTasks.erase id : List Nat)) +
            (s.completedTasks : List Nat) + (s.failedTasks : List Nat) := by ac_rfl
      _ = ((s.pendingTasks : List Nat) : Multiset Nat) + (s.processingTasks : List Nat) +
            (s.completedTasks : List Nat) + (s.failedTasks : List Nat) := by rw [← hpr]
      _ = ((List.range s.tasks.length : List Nat) : Multiset Nat) := hp
  · intro j hj
    have hne : j ≠ id := fun hc => (hpd j hj).1 (hc ▸ hid)
    rw [statusAt]
    rw [hstat_not j hne]
    exact h.pend j hj
  · intro j hj
    have hj' := (List.Nodup.mem_erase_iff hprnd).mp hj
    rw [statusAt]
    rw [hstat_not j hj'.1]
    exact h.proc j hj'.2
  · intro j hj
    have hne : j ≠ id := fun hc => (hprd id hid).1 (hc ▸ hj)
    rw [statusAt]
    rw [hstat_not j hne]
    exact h.comp j hj
  · intro j hj
    rcases List.mem_append.mp hj with hj' | hj'
    · have hne : j ≠ id := fun hc => (hprd id hid).2 (hc ▸ hj')
      rcases h.fail j hj' with hf | hf
      · exact Or.inl (by rw [statusAt]; rw [hstat_not j hne]; exact hf)
      · exact Or.inr (by rw [statusAt]; rw [hstat_not j hne]; exact hf)
    · rw [List.mem_singleton] at hj'
      subst hj'
      cases hget : s.tasks.get? j with
      | none =>
        have := List.get?_eq_none.mp hget
        omega
      | some t =>
        have : ((modifyAt g j s.tasks).get? j).map (fun t => t.status) =
            some (g t).status := by
          rw [get?_modifyAt, if_pos rfl, hget]
          rfl
        rcases hg t with hgt | hgt
        · exact Or.inl (by rw [statusAt]; rw [this, hgt])
        · exact Or.inr (by rw [statusAt]; rw [this, hgt])
  · exact le_trans (List.Sublist.length_le (List.erase_sublist id s.processingTasks)) h.bounded
  · exact h.pendSorted
  · exact h.claimSorted
  · exact h.claimLtPend
  · intro a ha
    rw [hlen']
    exact h.claimLtLen a ha

theorem inv_moveToCompleted {s : BatchState} (h : RegInv s) {id : Nat}
    (hid : id ∈ s.processingTasks) (g : BTask → BTask)
    (hg : ∀ t, (g t).status = TStatus.completed) (nf : List Nat) :
    RegInv { s with
      inFlight := nf
      processingTasks := s.processingTasks.erase id
      tasks := modifyAt g id s.tasks
      completedTasks := s.completedTasks ++ [id] } := by
  obtain ⟨⟨hpnd, hprnd, hcnd, hfnd⟩, hpd, hprd, hcd⟩ := nodup_four (inv_nodup h)
  have hidlt : id < s.tasks.length := inv_mem_lt h (mem_allIds_of_proc hid)
  have hlen' : (modifyAt g id s.tasks).length = s.tasks.length := length_modifyAt g id s.tasks
  have hstat_not : ∀ j, j ≠ id →
      ((modifyAt g id s.tasks).get? j).map (fun t => t.status) = statusAt s j := by
    intro j hj
    rw [get?_modifyAt, if_neg hj]
    rfl
  refine ⟨?_, ?_, ?_, ?_, ?_, ?_, ?_, ?_, ?_, ?_⟩
  · rw [← Multiset.coe_eq_coe]
    have hp := Multiset.coe_eq_coe.mpr h.perm
    simp only [allIds] at hp ⊢
    rw [hlen']
    simp only [← Multiset.coe_add] at hp ⊢
    have hpr : ((s.processingTasks : List Nat) : Multiset Nat) =
        (([id] ++ s.processingTasks.erase id : List Nat) : Multiset Nat) :=
      Multiset.coe_eq_coe.mpr (List.perm_cons_erase hid)
    rw [← Multiset.coe_add] at hpr
    calc ((s.pendingTasks : List Nat) : Multiset Nat) +
          (s.processingTasks.erase id : List Nat) +
          ((s.completedTasks : List Nat) + ([id] : List Nat)) + (s.failedTasks : List Nat)
        = ((s.pendingTasks : List Nat) : Multiset Nat) +
            (([id] : List Nat) + (s.processingTasks.erase id : List Nat)) +
            (s.completedTasks : List Nat) + (s.failedTasks : List Nat) := by ac_rfl
      _ = ((s.pendingTasks : List Nat) : Multiset Nat) + (s.processingTasks : List Nat) +
            (s.completedTasks : List Nat) + (s.failedTasks : List Nat) := by rw [← hpr]
      _ = ((List.range s.tasks.length : List Nat) : Multiset Nat) := hp
  · intro j hj
    have hne : j ≠ id := fun hc => (hpd j hj).1 (hc ▸ hid)
    rw [statusAt]
    rw [hstat_not j hne]
    exact h.pend j hj
  · intro j hj
    have hj' := (List.Nodup.mem_erase_iff hprnd).mp hj
    rw [statusAt]
    rw [hstat_not j hj'.1]
    exact h.proc j hj'.2
  · intro j hj
    rcases List.mem_append.mp hj with hj' | hj'
    · have hne : j ≠ id := fun hc => (hprd id hid).1 (hc ▸ hj')
      rw [statusAt]
      rw [hstat_not j hne]
      exact h.comp j hj'
    · rw [List.mem_singleton] at hj'
      subst hj'
      cases hget : s.tasks.get? j with
      | none =>
        have := List.get?_eq_none.mp hget
        omega
      | some t =>
        rw [statusAt]
        rw [get?_modifyAt, if_pos rfl, hget]
        simp [hg t]
  · intro j hj
    have hne : j ≠ id := fun hc => (hprd id hid).2 (hc ▸ hj)
    rcases h.fail j hj with hf | hf
    · exact Or.inl (by rw [statusAt]; rw [hstat_not j hne]; exact hf)
    · exact Or.inr (by rw [statusAt]; rw [hstat_not j hne]; exact hf)
  · exact le_trans (List.Sublist.length_le (List.erase_sublist id s.processingTasks)) h.bounded
  · exact h.pendSorted
  · exact h.claimSorted
  · exact h.claimLtPend
  · intro a ha
    rw [hlen']
    exact h.claimLtLen a ha

theorem inv_workerObserveCancel (id now : Nat) {s : BatchState} (h : RegInv s) :
    RegInv (workerObserveCancel id now s) := by
  unfold workerObserveCancel
  split_ifs with hc
  · exact inv_moveToFailed h hc.2.2
      (fun t => { t with
        status := .cancelled
        endTime := some now
        duration := now - t.startTime.getD 0 })
      (fun t => Or.inr rfl) s.inFlight
  · exact ⟨h.perm, h.pend, h.proc, h.comp, h.fail, h.bounded, h.pendSorted,
      h.claimSorted, h.claimLtPend, h.claimLtLen⟩

theorem inv_inFlightOnly {s : BatchState} (h : RegInv s) (nf : List Nat) :
    RegInv { s with inFlight := nf } :=
  ⟨h.perm, h.pend, h.proc, h.comp, h.fail, h.bounded, h.pendSorted,
    h.claimSorted, h.claimLtPend, h.claimLtLen⟩

theorem inv_workerFinish (conv : ConvFn) (id now : Nat) {s : BatchState} (h : RegInv s) :
    RegInv (workerFinish conv id now s) := by
  by_cases hif : id ∈ s.inFlight
  · unfold workerFinish
    rw [if_pos hif]
    cases hget : s.tasks.get? id with
    | none =>
      simp only [hget]
      exact inv_inFlightOnly h _
    | some t =>
      simp only [hget]
      cases hconv : conv t.inputPath t.outputPath [] with
      | ok success message =>
        by_cases hpr : id ∈ s.processingTasks
        · cases success with
          | true =>
            simp only [if_pos hpr, if_true]
            exact inv_moveToCompleted h hpr _ (fun t => rfl) _
          | false =>
            simp only [if_pos hpr, Bool.false_eq_true, if_false]
            exact inv_moveToFailed h hpr _ (fun t => Or.inl rfl) _
        · cases success <;> simp only [if_neg hpr] <;> exact inv_inFlightOnly h _
      | exn excType excMessage =>
        by_cases hpr : id ∈ s.processingTasks
        · simp only [if_pos hpr]
          exact inv_moveToFailed h hpr _ (fun t => Or.inl rfl) _
        · simp only [if_neg hpr]
          exact inv_inFlightOnly h _
  · unfold workerFinish
    rw [if_neg hif]
    exact h

theorem inv_stepFn (conv : ConvFn) (a : Act) {s : BatchState} (h : RegInv s) :
    RegInv (stepFn conv a s) := by
  cases a with
  | addTask i o opts => exact inv_addFileTask i o opts h
  | startA => exact inv_startStep h
  | cancelA => exact inv_cancelStep h
  | resetA => exact inv_resetStep h
  | monitorA now => exact inv_monitorIter now h
  | workerBeginA id => exact inv_workerBegin id h
  | workerCancelA id now => exact inv_workerObserveCancel id now h
  | workerFinishA id now => exact inv_workerFinish conv id now h

theorem inv_foldl (conv : ConvFn) (acts : List Act) {s : BatchState} (h : RegInv s) :
    RegInv (acts.foldl (fun s a => stepFn conv a s) s) := by
  induction acts generalizing s with
  | nil => exact h
  | cons a as ih => exact ih (inv_stepFn conv a h)

/-- Every state reachable by a sequence of atomic actions from a fresh
service instance satisfies the registry invariant. -/
theorem inv_runActs (conv : ConvFn) (cpuCount : Nat) (acts : List Act) :
    RegInv (runActs conv cpuCount acts) :=
  inv_foldl conv acts (inv_init cpuCount)

/-!  ### Claim theorems -/

theorem count_three_of_terminal {l : List BTask}
    (h : ∀ t ∈ l, t.status = TStatus.completed ∨ t.status = TStatus.failed ∨
      t.status = TStatus.cancelled) :
    (l.filter (fun t => decide (t.status = TStatus.completed))).length +
      (l.filter (fun t => decide (t.status = TStatus.failed))).length +
      (l.filter (fun t => decide (t.status = TStatus.cancelled))).length = l.length := by
  induction l with
  | nil => rfl
  | cons t ts ih =>
    have ht := h t (List.mem_cons_self t ts)
    have hts := ih (fun u hu => h u (List.mem_cons_of_mem t hu))
    rcases ht with ht | ht | ht <;>
      simp [List.filter_cons, ht] <;> omega

/-- C3: at every reachable state, each registered id lies in exactly one of
the four collections — their concatenation has no duplicates and holds
precisely the ids `0, …, len(tasks) - 1` — and membership in a collection
matches the task's status field (the failed list holding `failed` and
`cancelled` tasks, which is where the source keeps cancelled ids). -/
theorem C3_partition_invariant (conv : ConvFn) (cpuCount : Nat) (acts : List Act) :
    (allIds (runActs conv cpuCount acts)).Nodup ∧
      (∀ id, id ∈ allIds (runActs conv cpuCount acts) ↔
        id < (runActs conv cpuCount acts).tasks.length) ∧
      (∀ id ∈ (runActs conv cpuCount acts).pendingTasks,
        statusAt (runActs conv cpuCount acts) id = some TStatus.pending) ∧
      (∀ id ∈ (runActs conv cpuCount acts).processingTasks,
        statusAt (runActs conv cpuCount acts) id = some TStatus.processing) ∧
      (∀ id ∈ (runActs conv cpuCount acts).completedTasks,
        statusAt (runActs conv cpuCount acts) id = some TStatus.completed) ∧
      (∀ id ∈ (runActs conv cpuCount acts).failedTasks,
        statusAt (runActs conv cpuCount acts) id = some TStatus.failed ∨
          statusAt (runActs conv cpuCount acts) id = some TStatus.cancelled) := by
  have h := inv_runActs conv cpuCount acts
  refine ⟨inv_nodup h, ?_, h.pend, h.proc, h.comp, h.fail⟩
  intro id
  constructor
  · exact fun hm => inv_mem_lt h hm
  · intro hlt
    have := h.perm.mem_iff (a := id)
    rw [this]
    simpa using hlt

/-- C4 counterexample: one task, `Start`, `Cancel`, and one scheduler
iteration observing the flag.  The loop has terminated (`running = false`)
and no dispatched worker is outstanding (`processing = []`), yet the
terminal counts sum to `0 ≠ 1 = N` and one task is still pending: a
cancelled run drains in the claim's sense without conserving counts. -/
theorem C4_counterexample :
    (runActs convOk 0 traceCancelObserved).running = false ∧
      (runActs convOk 0 traceCancelObserved).processingTasks = [] ∧
      (runActs convOk 0 traceCancelObserved).tasks.length = 1 ∧
      countStatus TStatus.completed (runActs convOk 0 traceCancelObserved) +
        countStatus TStatus.failed (runActs convOk 0 traceCancelObserved) +
        countStatus TStatus.cancelled (runActs convOk 0 traceCancelObserved) = 0 ∧
      (runActs convOk 0 traceCancelObserved).pendingTasks.length = 1 := by
  refine ⟨rfl, rfl, rfl, rfl, rfl⟩

/-- C4 (amended): in any reachable state in which the pending list and the
processing set are both empty — which is how a run without a cancellation
request terminates, and which a cancelled run never reaches because its
unclaimed tasks stay pending — the `Completed`, `Failed` and `Cancelled`
counts sum to the number of submitted tasks, and the pending and
processing counts are zero. -/
theorem C4_conservation (conv : ConvFn) (cpuCount : Nat) (acts : List Act)
    (hp : (runActs conv cpuCount acts).pendingTasks = [])
    (hpr : (runActs conv cpuCount acts).processingTasks = []) :
    countStatus TStatus.completed (runActs conv cpuCount acts) +
        countStatus TStatus.failed (runActs conv cpuCount acts) +
        countStatus TStatus.cancelled (runActs conv cpuCount acts) =
      (runActs conv cpuCount acts).tasks.length ∧
      (runActs conv cpuCount acts).pendingTasks.length = 0 ∧
      (runActs conv cpuCount acts).processingTasks.length = 0 := by
  have h := inv_runActs conv cpuCount acts
  refine ⟨?_, by rw [hp]; rfl, by rw [hpr]; rfl⟩
  apply count_three_of_terminal
  intro t ht
  obtain ⟨j, hj⟩ := List.mem_iff_get?.mp ht
  have hjlt : j < (runActs conv cpuCount acts).tasks.length := by
    by_contra hge
    rw [List.get?_eq_none.mpr (Nat.le_of_not_lt hge)] at hj
    exact Option.noConfusion hj
  have hjmem : j ∈ allIds (runActs conv cpuCount acts) := by
    rw [h.perm.mem_iff]
    simpa using hjlt
  have hstat : statusAt (runActs conv cpuCount acts) j = some t.status := by
    rw [statusAt, hj]
    rfl
  rw [allIds, hp, hpr] at hjmem
  simp only [List.nil_append, List.mem_append] at hjmem
  rcases hjmem with hc | hf
  · left
    have := h.comp j hc
    rw [hstat] at this
    exact Option.some.inj this
  · rcases h.fail j hf with hx | hx
    · right; left
      rw [hstat] at hx
      exact Option.some.inj hx
    · right; right
      rw [hstat] at hx
      exact Option.some.inj hx

/-- C4 witness: a drained one-task run satisfies the hypotheses and the
conservation equation concretely. -/
theorem C4_witness :
    countStatus TStatus.completed (runActs convOk 0 traceDrained) +
        countStatus TStatus.failed (runActs convOk 0 traceDrained) +
        countStatus TStatus.cancelled (runActs convOk 0 traceDrained) =
      (runActs convOk 0 traceDrained).tasks.length ∧
      (runActs convOk 0 traceDrained).pendingTasks.length = 0 ∧
      (runActs convOk 0 traceDrained).processingTasks.length = 0 :=
  C4_conservation convOk 0 traceDrained (by decide) (by decide)

/-- C5: at every reachable state the processing count is at most
`maxWorkers`; moreover one claim step grows the processing set by exactly
`min(maxWorkers - processingCount, pendingCount)` ids — never more than
the available capacity — and performs the claim and the transition to
`Processing` in the same atomic step (one lock acquisition in the
source). -/
theorem C5_bounded_concurrency (conv : ConvFn) (cpuCount : Nat) (acts : List Act) :
    (runActs conv cpuCount acts).processingTasks.length ≤
        (runActs conv cpuCount acts).maxWorkers ∧
      (∀ (s : BatchState) (now : Nat),
        (claimBatch now s).processingTasks.length =
          s.processingTasks.length +
            min (s.maxWorkers - s.processingTasks.length) s.pendingTasks.length) := by
  refine ⟨(inv_runActs conv cpuCount acts).bounded, ?_⟩
  intro s now
  simp only [claimBatch, List.length_append, List.length_take]
  omega

/-- C6: the scheduler claims from the front of the pending list with no
reordering — one claim step removes exactly the first
`min(available, pendingCount)` ids and appends them, in order, to the
claim history — and since ids are assigned in submission order and the
pending list is kept sorted, the claim history of every reachable state is
strictly increasing: tasks are claimed in exact submission order (in
particular with `maxWorkers = 1`). -/
theorem C6_fifo_order (conv : ConvFn) (cpuCount : Nat) (acts : List Act) :
    List.Pairwise (fun a b => a < b) (runActs conv cpuCount acts).claimOrder ∧
      (∀ (s : BatchState) (now : Nat),
        (claimBatch now s).claimOrder = s.claimOrder ++
          s.pendingTasks.take
            (min (s.maxWorkers - s.processingTasks.length) s.pendingTasks.length) ∧
        (claimBatch now s).pendingTasks =
          s.pendingTasks.drop
            (min (s.maxWorkers - s.processingTasks.length) s.pendingTasks.length)) :=
  ⟨(inv_runActs conv cpuCount acts).claimSorted, fun _ _ => ⟨rfl, rfl⟩⟩

theorem statusAt_modifyAt_self {tasks : List BTask} {id : Nat} {t : BTask}
    (g : BTask → BTask) (hget : tasks.get? id = some t) :
    ((modifyAt g id tasks).get? id).map (fun u => u.status) = some (g t).status := by
  rw [get?_modifyAt, if_pos rfl, hget]
  rfl

theorem exists_get?_of_statusAt {s : BatchState} {id : Nat} {st : TStatus}
    (h : statusAt s id = some st) : ∃ t, s.tasks.get? id = some t ∧ t.status = st := by
  rw [statusAt] at h
  cases hget : s.tasks.get? id with
  | none => rw [hget] at h; exact absurd h (by simp)
  | some t => rw [hget] at h; exact ⟨t, rfl, by simpa using h⟩

/-- C1 counterexample: one task, `Start`, `Cancel`, then the scheduler
loop observes the flag and the run ends (`running = false`, no dispatched
worker outstanding).  The task that was Pending at the moment the flag was
observed is still `pending` — it is never relabelled `Cancelled`, contrary
to the claim. -/
theorem C1_counterexample :
    (runActs convOk 0 traceCancelObserved).running = false ∧
      (runActs convOk 0 traceCancelObserved).pendingTasks = [0] ∧
      statusAt (runActs convOk 0 traceCancelObserved) 0 = some TStatus.pending := by
  refine ⟨rfl, rfl, rfl⟩

/-- C1 (amended): once the cancellation flag is set, (a) a scheduler loop
iteration claims and dispatches nothing and leaves every task record —
in particular every still-pending task — untouched, so pending tasks
remain `Pending` rather than becoming `Cancelled`; (b) no dispatched
worker begins its conversion; (c) a dispatched worker that has not yet
begun converting relabels its task `Cancelled` and files it in the failed
list; (d) a worker already mid-conversion runs the Conversion Function to
its natural `Completed`/`Failed` outcome. -/
theorem C1_cancellation_behavior {s : BatchState} (hinv : RegInv s)
    (hc : s.cancelRequested = true) :
    (∀ now, (monitorIter now s).pendingTasks = s.pendingTasks ∧
      (monitorIter now s).processingTasks = s.processingTasks ∧
      (monitorIter now s).tasks = s.tasks) ∧
      (∀ id, workerBegin id s = s) ∧
      (∀ id now, id ∈ s.processingTasks → id ∉ s.inFlight →
        statusAt (workerObserveCancel id now s) id = some TStatus.cancelled ∧
        id ∈ (workerObserveCancel id now s).failedTasks ∧
        id ∉ (workerObserveCancel id now s).processingTasks) ∧
      (∀ (conv : ConvFn) id now, id ∈ s.inFlight → id ∈ s.processingTasks →
        statusAt (workerFinish conv id now s) id = some TStatus.completed ∨
        statusAt (workerFinish conv id now s) id = some TStatus.failed) := by
  refine ⟨?_, ?_, ?_, ?_⟩
  · intro now
    unfold monitorIter
    by_cases hrun : s.running = true ∧ (s.pendingTasks ≠ [] ∨ s.processingTasks ≠ [])
    · rw [if_pos hrun, if_pos hc]
      exact ⟨rfl, rfl, rfl⟩
    · rw [if_neg hrun]
      exact ⟨rfl, rfl, rfl⟩
  · intro id
    unfold workerBegin
    rw [if_neg]
    intro hcond
    rw [hcond.1] at hc
    exact Bool.false_ne_true hc
  · intro id now hpr hnif
    obtain ⟨t, hget, _⟩ := exists_get?_of_statusAt (hinv.proc id hpr)
    have hprnd := (nodup_four (inv_nodup hinv)).1.2.1
    unfold workerObserveCancel
    rw [if_pos ⟨hc, hnif, hpr⟩]
    refine ⟨?_, ?_, ?_⟩
    · exact statusAt_modifyAt_self _ hget
    · simp
    · intro hcon
      exact ((List.Nodup.mem_erase_iff hprnd).mp hcon).1 rfl
  · intro conv id now hif hpr
    obtain ⟨t, hget, _⟩ := exists_get?_of_statusAt (hinv.proc id hpr)
    unfold workerFinish
    rw [if_pos hif]
    simp only [hget]
    cases hconv : conv t.inputPath t.outputPath [] with
    | ok success message =>
      cases success with
      | true =>
        simp only [if_pos hpr, if_true]
        exact Or.inl (statusAt_modifyAt_self _ hget)
      | false =>
        simp only [if_pos hpr, Bool.false_eq_true, if_false]
        exact Or.inr (statusAt_modifyAt_self _ hget)
    | exn excType excMessage =>
      simp only [if_pos hpr]
      exact Or.inr (statusAt_modifyAt_self _ hget)

/-- C1 witness: in a concrete cancelled mid-run state (five tasks, four
claimed, worker 1 mid-conversion, flag set) the amended cancellation
behavior holds at explicit instants. -/
theorem C1_witness :
    (monitorIter 7 (runActs convOk 0 traceCancelMidRun)).pendingTasks =
        (runActs convOk 0 traceCancelMidRun).pendingTasks ∧
      workerBegin 0 (runActs convOk 0 traceCancelMidRun) =
        runActs convOk 0 traceCancelMidRun ∧
      statusAt (workerObserveCancel 0 9 (runActs convOk 0 traceCancelMidRun)) 0 =
        some TStatus.cancelled ∧
      (statusAt (workerFinish convOk 1 9 (runActs convOk 0 traceCancelMidRun)) 1 =
          some TStatus.completed ∨
        statusAt (workerFinish convOk 1 9 (runActs convOk 0 traceCancelMidRun)) 1 =
          some TStatus.failed) := by
  have h := C1_cancellation_behavior
    (inv_runActs convOk 0 traceCancelMidRun) (by decide)
  exact ⟨(h.1 7).1, h.2.1 0, (h.2.2.1 0 9 (by decide) (by decide)).1,
    h.2.2.2 convOk 1 9 (by decide) (by decide)⟩

/-- C2: evaluation at the failing input.  A task stores the options bag
`{"colorspace": "srgb"}`, yet the worker's `convert_image` call at
`batch_service.py:221` passes only the two paths, so a Conversion
Function that succeeds precisely on a non-empty bag reports failure: the
bag was not passed through. -/
theorem C2_options_dropped :
    statusAt (runActs convNeedsOptions 0 traceOptions) 0 = some TStatus.failed ∧
      ((runActs convNeedsOptions 0 traceOptions).tasks.getD 0 dummyTask).error =
        some "empty options" ∧
      ((runActs convNeedsOptions 0 traceOptions).tasks.getD 0 dummyTask).options =
        [("colorspace", "srgb")] ∧
      convNeedsOptions "in.png" "out.exr" [("colorspace", "srgb")] =
        ConvResult.ok true "ok" := by
  refine ⟨rfl, rfl, rfl, rfl⟩

/-- C7 counterexample: a conversion raising `ValueError("boom")` leaves
`error = "boom"` — the exception's message alone; the type name
`ValueError` occurs nowhere in the stored error, so the error field is not
a type-plus-message description. -/
theorem C7_counterexample :
    ((runActs convRaises 0 traceRaises).tasks.getD 0 dummyTask).error = some "boom" ∧
      charsOccurIn "ValueError".toList "boom".toList = false ∧
      statusAt (runActs convRaises 0 traceRaises) 0 = some TStatus.failed := by
  refine ⟨rfl, by decide, rfl⟩

/-- C7 (amended): for a dispatched mid-conversion worker, a
`success = false` return yields `Failed` with the returned message stored
verbatim; a raised exception is caught (the model's worker step is a total
function — nothing escapes to the scheduler) and yields `Failed` with the
exception's message alone stored — `get_detailed_error_info` captures the
type separately, but only its `message` field reaches the task record;
`endTime` is stamped in every outcome. -/
theorem C7_worker_error_capture (conv : ConvFn) (s : BatchState) (id now : Nat)
    (t : BTask) (hif : id ∈ s.inFlight) (hpr : id ∈ s.processingTasks)
    (hget : s.tasks.get? id = some t) :
    (∀ m, conv t.inputPath t.outputPath [] = ConvResult.ok true m →
      statusAt (workerFinish conv id now s) id = some TStatus.completed ∧
      ((workerFinish conv id now s).tasks.getD id dummyTask).endTime = some now) ∧
      (∀ m, conv t.inputPath t.outputPath [] = ConvResult.ok false m →
        statusAt (workerFinish conv id now s) id = some TStatus.failed ∧
        ((workerFinish conv id now s).tasks.getD id dummyTask).error = some m ∧
        ((workerFinish conv id now s).tasks.getD id dummyTask).endTime = some now) ∧
      (∀ ty m, conv t.inputPath t.outputPath [] = ConvResult.exn ty m →
        statusAt (workerFinish conv id now s) id = some TStatus.failed ∧
        ((workerFinish conv id now s).tasks.getD id dummyTask).error =
          some (getDetailedErrorInfo ty m).message ∧
        ((workerFinish conv id now s).tasks.getD id dummyTask).endTime = some now) := by
  have hgetD : ∀ (g : BTask → BTask),
      ((modifyAt g id s.tasks).get? id) = some (g t) := by
    intro g
    rw [get?_modifyAt, if_pos rfl, hget]
    rfl
  refine ⟨?_, ?_, ?_⟩
  · intro m hconv
    unfold workerFinish
    rw [if_pos hif]
    simp only [hget, hconv, if_pos hpr, if_true]
    constructor
    · exact statusAt_modifyAt_self _ hget
    · rw [List.getD_eq_getElem?_getD, ← List.get?_eq_getElem?, hgetD]
      rfl
  · intro m hconv
    unfold workerFinish
    rw [if_pos hif]
    simp only [hget, hconv, if_pos hpr, Bool.false_eq_true, if_false]
    refine ⟨statusAt_modifyAt_self _ hget, ?_, ?_⟩
    · rw [List.getD_eq_getElem?_getD, ← List.get?_eq_getElem?, hgetD]
      rfl
    · rw [List.getD_eq_getElem?_getD, ← List.get?_eq_getElem?, hgetD]
      rfl
  · intro ty m hconv
    unfold workerFinish
    rw [if_pos hif]
    simp only [hget, hconv, if_pos hpr]
    refine ⟨statusAt_modifyAt_self _ hget, ?_, ?_⟩
    · rw [List.getD_eq_getElem?_getD, ← List.get?_eq_getElem?, hgetD]
      rfl
    · rw [List.getD_eq_getElem?_getD, ← List.get?_eq_getElem?, hgetD]
      rfl

/-- C7 witness: the amended error capture evaluated in a concrete
mid-flight state whose conversion raises `ValueError("boom")`. -/
theorem C7_witness :
    statusAt (workerFinish convRaises 0 5 (runActs convRaises 0 traceMidFlight)) 0 =
        some TStatus.failed ∧
      ((workerFinish convRaises 0 5
        (runActs convRaises 0 traceMidFlight)).tasks.getD 0 dummyTask).error =
        some "boom" := by
  have h := C7_worker_error_capture convRaises (runActs convRaises 0 traceMidFlight) 0 5
    ((runActs convRaises 0 traceMidFlight).tasks.getD 0 dummyTask)
    (by decide) (by decide) (by decide)
  have h3 := h.2.2 "ValueError" "boom" (by decide)
  exact ⟨h3.1, h3.2.1⟩

/-- C8 counterexample: with one task mid-processing (claimed at time 0),
two snapshots with no intervening registry mutation — only the clock
advanced from 1 to 2 — differ, because the processing bucket's `duration`
is computed live as `now - startTime`
(`batch_service.py:281-282`). -/
theorem C8_counterexample :
    getProgressInfo 1 (runActs convOk 0 traceProcessing) ≠
      getProgressInfo 2 (runActs convOk 0 traceProcessing) := by
  decide

/-- C8 (amended): `Snapshot` is a pure read of the registry — in this
model it is a function of the state and the clock and mutates nothing by
construction — and two snapshots of the same registry state are equal
whenever no task is in the `Processing` bucket; the live `duration` of
processing entries is the only clock-dependent field. -/
theorem C8_snapshot_idempotent (s : BatchState) (now1 now2 : Nat)
    (h : s.processingTasks = []) :
    getProgressInfo now1 s = getProgressInfo now2 s := by
  simp [getProgressInfo, h]

/-- C8 witness: equal snapshots of a drained one-task run at times 5
and 9. -/
theorem C8_witness :
    getProgressInfo 5 (runActs convOk 0 traceDrained) =
      getProgressInfo 9 (runActs convOk 0 traceDrained) :=
  C8_snapshot_idempotent (runActs convOk 0 traceDrained) 5 9 (by decide)

set_option maxRecDepth 10000 in
/-- C9 counterexample: a reachable state with 29 of 100 tasks terminal.
The exact formula gives `floor(29 / 100 * 100) = 29`, but the snapshot's
`percentage` — computed by CPython as `int(29 / 100 * 100)` in binary64
floats, where `29 / 100 * 100 = 28.999999999999996` — is `28`. -/
theorem C9_percentage_counterexample :
    (getProgressInfo 2 (runActs convOk 64 tracePercent29)).completedCount = 29 ∧
      (getProgressInfo 2 (runActs convOk 64 tracePercent29)).failedCount = 0 ∧
      (getProgressInfo 2 (runActs convOk 64 tracePercent29)).total = 100 ∧
      (getProgressInfo 2 (runActs convOk 64 tracePercent29)).percentage = 28 ∧
      (29 + 0 + 0) * 100 / 100 = 29 := by
  refine ⟨by decide, by decide, by decide, by decide, by decide⟩

/-- C9 (amended): the snapshot reports every id of the failed list —
which is where cancelled tasks are kept — inside the failed bucket, each
entry tagged with the task's own status value (`cancelled` for cancelled
tasks) and carrying its error and duration; and the `percentage` field
equals the truncated IEEE-754 binary64 evaluation of
`(completedCount + failedCount) / total * 100` (the failed count already
includes cancelled tasks), `0` for an empty registry.  This equals the
exact floor of the claim except when float rounding lands just below an
integer, as at 29 of 100. -/
theorem C9_snapshot_failed_bucket (s : BatchState) (now : Nat) :
    (getProgressInfo now s).failed = s.failedTasks.map (fun id =>
      let t := s.tasks.getD id dummyTask
      { inputPath := t.inputPath, outputPath := t.outputPath, status := t.status,
        error := t.error, duration := t.duration }) ∧
      (getProgressInfo now s).percentage =
        (if s.tasks.length = 0 then 0
          else pyPercent (s.completedTasks.length + s.failedTasks.length)
            s.tasks.length) :=
  ⟨rfl, rfl⟩

/-- C10 counterexample: `reset` during a run with a worker mid-conversion
clears the registry immediately: afterwards the collections are empty
while the run is still active (`running = true`) and the worker is still
in flight — the cancellation protocol was started but no drain was
awaited before clearing, contrary to the claim. -/
theorem C10_counterexample :
    (resetStep (runActs convOk 0 traceMidFlight)).tasks = [] ∧
      (resetStep (runActs convOk 0 traceMidFlight)).running = true ∧
      (resetStep (runActs convOk 0 traceMidFlight)).inFlight = [0] := by
  refine ⟨rfl, rfl, rfl⟩

/-- C10 (amended): `reset`, when a run is active, requests cancellation
(sets the flag via `cancel()`) and then immediately — without waiting for
the run to drain — clears every task collection, so that `get_results`
reports `total == 0` afterwards (the id counter is `len(tasks)`, so ids
restart at 0); on an idle, already-empty registry it is a silent
no-op. -/
theorem C10_reset_behavior (s : BatchState) :
    ((resetStep s).tasks = [] ∧ (resetStep s).pendingTasks = [] ∧
      (resetStep s).processingTasks = [] ∧ (resetStep s).completedTasks = [] ∧
      (resetStep s).failedTasks = [] ∧ (getResults (resetStep s)).total = 0) ∧
      (s.running = true → (resetStep s).cancelRequested = true) ∧
      (s.running = false → s.tasks = [] → s.pendingTasks = [] →
        s.processingTasks = [] → s.completedTasks = [] → s.failedTasks = [] →
        s.claimOrder = [] → resetStep s = s) := by
  obtain ⟨mw, run, cr, tk, p, pr, c, f, infl, co⟩ := s
  refine ⟨?_, ?_, ?_⟩
  · cases run <;>
      exact ⟨rfl, rfl, rfl, rfl, rfl, rfl⟩
  · intro hrun
    simp only at hrun
    subst hrun
    rfl
  · intro hrun htk hp hpr hc hf hco
    simp only at hrun htk hp hpr hc hf hco
    subst hrun; subst htk; subst hp; subst hpr; subst hc; subst hf; subst hco
    rfl

/-- C10 witness: the amended reset behavior at a concrete mid-run state
and at a fresh empty instance. -/
theorem C10_witness :
    ((getResults (resetStep (runActs convOk 0 traceMidFlight))).total = 0 ∧
      (resetStep (runActs convOk 0 traceMidFlight)).cancelRequested = true) ∧
      resetStep (initState 0) = initState 0 := by
  have h1 := C10_reset_behavior (runActs convOk 0 traceMidFlight)
  have h2 := C10_reset_behavior (initState 0)
  exact ⟨⟨h1.1.2.2.2.2.2, h1.2.1 (by decide)⟩,
    h2.2.2 rfl rfl rfl rfl rfl rfl rfl⟩

/-- C3 witness: the partition invariant evaluated on a concrete drained
run. -/
theorem C3_witness :
    (allIds (runActs convOk 0 traceDrained)).Nodup ∧
      statusAt (runActs convOk 0 traceDrained) 0 = some TStatus.completed := by
  have h := C3_partition_invariant convOk 0 traceDrained
  exact ⟨h.1, h.2.2.2.2.1 0 (by decide)⟩

/-- C5 witness: the bound and the claim-step equation evaluated on a
concrete state with one processing task. -/
theorem C5_witness :
    (runActs convOk 0 traceProcessing).processingTasks.length ≤
        (runActs convOk 0 traceProcessing).maxWorkers ∧
      (claimBatch 3 (runActs convOk 0 traceProcessing)).processingTasks.length =
        (runActs convOk 0 traceProcessing).processingTasks.length +
          min ((runActs convOk 0 traceProcessing).maxWorkers -
              (runActs convOk 0 traceProcessing).processingTasks.length)
            (runActs convOk 0 traceProcessing).pendingTasks.length := by
  have h := C5_bounded_concurrency convOk 0 traceProcessing
  exact ⟨h.1, h.2 (runActs convOk 0 traceProcessing) 3⟩

/-- C6 witness: the strictly increasing claim history and the front-take
equations evaluated on a concrete mid-run state. -/
theorem C6_witness :
    List.Pairwise (fun a b => a < b) (runActs convOk 0 traceCancelMidRun).claimOrder ∧
      (claimBatch 3 (runActs convOk 0 traceCancelMidRun)).claimOrder =
        (runActs convOk 0 traceCancelMidRun).claimOrder ++
          (runActs convOk 0 traceCancelMidRun).pendingTasks.take
            (min ((runActs convOk 0 traceCancelMidRun).maxWorkers -
                (runActs convOk 0 traceCancelMidRun).processingTasks.length)
              (runActs convOk 0 traceCancelMidRun).pendingTasks.length) := by
  have h := C6_fifo_order convOk 0 traceCancelMidRun
  exact ⟨h.1, (h.2 (runActs convOk 0 traceCancelMidRun) 3).1⟩

/-- C9 witness: the failed-bucket shape and percentage formula evaluated
on a concrete drained run. -/
theorem C9_witness :
    (getProgressInfo 3 (runActs convOk 0 traceDrained)).failed =
        (runActs convOk 0 traceDrained).failedTasks.map (fun id =>
          let t := (runActs convOk 0 traceDrained).tasks.getD id dummyTask
          { inputPath := t.inputPath, outputPath := t.outputPath, status := t.status,
            error := t.error, duration := t.duration }) ∧
      (getProgressInfo 3 (runActs convOk 0 traceDrained)).percentage =
        (if (runActs convOk 0 traceDrained).tasks.length = 0 then 0
          else pyPercent ((runActs convOk 0 traceDrained).completedTasks.length +
              (runActs convOk 0 traceDrained).failedTasks.length)
            (runActs convOk 0 traceDrained).tasks.length) :=
  C9_snapshot_failed_bucket (runActs convOk 0 traceDrained) 3
